import Mathlib

/-!
Shallow embedding of the inventory application (src/inventory.py):
a MySQL-backed data-access layer over two tables, `products` and `sales`,
plus the sale-recording transaction.

Modelling conventions:
* A table is a list of rows.  The `products.id` primary key is a `Nat`
  assigned from an auto-increment counter; the PRIMARY KEY constraint is
  expressed, where a claim needs it, as the hypothesis that the list of ids
  has no duplicates.
* MySQL `DOUBLE` is modelled as `ℚ` (exact arithmetic), `INT` as `Int`.
* The `category` column is nullable (`VARCHAR(255)` with no NOT NULL), so a
  stored category is an `Option String`.  `DATETIME` values are opaque
  strings supplied by a `now` parameter.
* `cursor.rowcount` after an UPDATE reports the number of rows MySQL
  actually *changed*, not the number matched, because
  mysql-connector-python does not set the CLIENT_FOUND_ROWS flag by
  default.  An UPDATE that assigns a column its current value therefore
  contributes 0 to `rowcount`.  For DELETE, `rowcount` is the number of
  rows deleted.
* `record_sale` runs inside a connection-level transaction: its writes go
  to an uncommitted pending state, `commit` publishes them, `rollback`
  discards them.  Exceptions raised by the driver during the write phase
  are modelled by an explicit fault parameter.
-/

namespace Inventory

/-- A row of the `products` table. -/
structure Row where
  id : Nat
  name : String
  category : Option String
  price : ℚ
  stock : Int
  added_date : String
  deriving Repr, DecidableEq

/-- A row of the `sales` table. -/
structure SaleRow where
  sale_id : Nat
  product_id : Nat
  quantity : Int
  total_price : ℚ
  sale_date : String
  deriving Repr, DecidableEq

/-- The persistent database state: both tables plus the auto-increment
counters. -/
structure DBState where
  products : List Row
  sales : List SaleRow
  nextProductId : Nat
  nextSaleId : Nat
  deriving Repr, DecidableEq

/-- The `Product` dataclass returned to callers.  Its `category` field is
annotated `str` in the source but Python does not enforce the annotation:
`get_product_by_id` passes the raw column value through, so a NULL category
surfaces as `None`.  We therefore model the field as `Option String`. -/
structure Product where
  id : Nat
  name : String
  category : Option String
  price : ℚ
  stock : Int
  added_date : String
  deriving Repr, DecidableEq

/-- Row-to-dataclass conversion used by `get_product_by_id` and
`low_stock`: the category column is passed through unchanged. -/
def rowToProduct (r : Row) : Product :=
  ⟨r.id, r.name, r.category, r.price, r.stock, r.added_date⟩

/-- Row-to-dataclass conversion used by `get_products`: the source applies
Python `r[2] or ""`, collapsing a NULL (and an empty) category to `""`. -/
def rowToProductOrEmpty (r : Row) : Product :=
  ⟨r.id, r.name, some (r.category.getD ""), r.price, r.stock, r.added_date⟩

/-- `ORDER BY id` comparison on product rows. -/
def rowIdLe (a b : Row) : Prop := a.id ≤ b.id

/-- `ORDER BY stock` comparison on product rows. -/
def rowStockLe (a b : Row) : Prop := a.stock ≤ b.stock

instance : DecidableRel rowIdLe := fun a b => Nat.decLe a.id b.id

instance : DecidableRel rowStockLe := fun a b => Int.decLe a.stock b.stock

instance : IsTotal Row rowIdLe := ⟨fun a b => Nat.le_total a.id b.id⟩

instance : IsTrans Row rowIdLe := ⟨fun _ _ _ h h' => Nat.le_trans h h'⟩

instance : IsTotal Row rowStockLe := ⟨fun a b => Int.le_total a.stock b.stock⟩

instance : IsTrans Row rowStockLe := ⟨fun _ _ _ h h' => Int.le_trans h h'⟩

/-- `InventoryDBMySQL.add_product`: INSERT the four supplied columns
(`id` and `added_date` are filled by the engine) and return
`cursor.lastrowid`.  The source performs no validation whatsoever. -/
def add_product (s : DBState) (name category : String) (price : ℚ)
    (stock : Int) (now : String) : Nat × DBState :=
  let newId := s.nextProductId
  (newId,
    { s with
      products := s.products ++ [⟨newId, name, some category, price, stock, now⟩]
      nextProductId := newId + 1 })

/-- `InventoryDBMySQL.get_products`: SELECT all rows ORDER BY id, then map
each row through `Product(..., category=r[2] or "", ...)`. -/
def get_products (s : DBState) : List Product :=
  (s.products.insertionSort rowIdLe).map rowToProductOrEmpty

/-- `InventoryDBMySQL.get_product_by_id`: SELECT the row WHERE id matches
(`fetchone`), returning `None` when absent; the category column is passed
through without the `or ""` normalisation. -/
def get_product_by_id (s : DBState) (pid : Nat) : Option Product :=
  (s.products.find? (fun r => r.id == pid)).map rowToProduct

/-- `InventoryDBMySQL.update_stock`: `UPDATE products SET stock = stock + a
WHERE id = pid`, returning `cursor.rowcount > 0`.  A row counts toward
`rowcount` only when the UPDATE changes its stored value, i.e. when the
added quantity is nonzero. -/
def update_stock (s : DBState) (pid : Nat) (add_qty : Int) : Bool × DBState :=
  let ok := s.products.any (fun r => r.id == pid && r.stock + add_qty != r.stock)
  (ok,
    { s with
      products := s.products.map
        (fun r => if r.id = pid then { r with stock := r.stock + add_qty } else r) })

/-- `InventoryDBMySQL.set_stock`: `UPDATE products SET stock = v WHERE
id = pid`, returning `cursor.rowcount > 0`.  A row counts toward
`rowcount` only when its stored stock differs from the new value. -/
def set_stock (s : DBState) (pid : Nat) (new_stock : Int) : Bool × DBState :=
  let ok := s.products.any (fun r => r.id == pid && r.stock != new_stock)
  (ok,
    { s with
      products := s.products.map
        (fun r => if r.id = pid then { r with stock := new_stock } else r) })

/-- `InventoryDBMySQL.delete_product`: `DELETE FROM products WHERE id =
pid` with the `sales.product_id` foreign key declared ON DELETE CASCADE,
returning `cursor.rowcount > 0` (rows deleted). -/
def delete_product (s : DBState) (pid : Nat) : Bool × DBState :=
  let ok := s.products.any (fun r => r.id == pid)
  (ok,
    { s with
      products := s.products.filter (fun r => r.id != pid)
      sales := s.sales.filter (fun sl => sl.product_id != pid) })

/-- `InventoryDBMySQL.low_stock`: SELECT rows WHERE stock < threshold
ORDER BY stock (default threshold 10); rows are converted without the
`or ""` category normalisation. -/
def low_stock (s : DBState) (threshold : Int := 10) : List Product :=
  ((s.products.filter (fun r => decide (r.stock < threshold))).insertionSort
    rowStockLe).map rowToProduct

/-- `InventoryDBMySQL.record_sale`, exception-free path: read price and
stock of the product (`fetchone` on the WHERE id match); fail when absent
or when `stock < qty`; otherwise insert the sale row, decrement the stock
and commit, returning `(True, total_price, "Sale recorded")`. -/
def record_sale (s : DBState) (pid : Nat) (qty : Int) (now : String) :
    (Bool × Option ℚ × String) × DBState :=
  match s.products.find? (fun r => r.id == pid) with
  | none => ((false, none, "Product not found"), s)
  | some r =>
    if r.stock < qty then
      ((false, none, "Not enough stock (available: " ++ toString r.stock ++ ")"), s)
    else
      let total_price := r.price * (qty : ℚ)
      ((true, some total_price, "Sale recorded"),
        { s with
          products := s.products.map
            (fun p => if p.id = pid then { p with stock := p.stock - qty } else p)
          sales := s.sales ++ [⟨s.nextSaleId, pid, qty, total_price, now⟩]
          nextSaleId := s.nextSaleId + 1 })

/-- `InventoryDBMySQL.get_total_inventory_value`: `SELECT SUM(price *
stock) FROM products`, with NULL (empty table) read back as `0.0`. -/
def get_total_inventory_value (s : DBState) : ℚ :=
  (s.products.map (fun r => r.price * (r.stock : ℚ))).sum

/-- A database connection mid-transaction: `committed` is what the engine
has durably published, `pending` additionally holds this connection's
uncommitted writes. -/
structure Session where
  committed : DBState
  pending : DBState
  deriving Repr, DecidableEq

/-- `conn.commit()`: publish the pending writes. -/
def Session.commit (sess : Session) : Session :=
  ⟨sess.pending, sess.pending⟩

/-- `conn.rollback()`: discard the pending writes. -/
def Session.rollback (sess : Session) : Session :=
  ⟨sess.committed, sess.committed⟩

/-- Uncommitted effect of the `INSERT INTO sales` statement. -/
def Session.insertSale (sess : Session) (pid : Nat) (qty : Int)
    (total_price : ℚ) (now : String) : Session :=
  { sess with
    pending :=
      { sess.pending with
        sales := sess.pending.sales ++
          [⟨sess.pending.nextSaleId, pid, qty, total_price, now⟩]
        nextSaleId := sess.pending.nextSaleId + 1 } }

/-- Uncommitted effect of the `UPDATE products SET stock = stock - qty`
statement. -/
def Session.decStock (sess : Session) (pid : Nat) (qty : Int) : Session :=
  { sess with
    pending :=
      { sess.pending with
        products := sess.pending.products.map
          (fun p => if p.id = pid then { p with stock := p.stock - qty } else p) } }

/-- Where, if anywhere, the driver raises during `record_sale`'s write
phase; a fault carries the text of the exception (`str(e)`). -/
inductive WriteFault where
  | noFault : WriteFault
  | atInsert (msg : String) : WriteFault
  | atUpdate (msg : String) : WriteFault
  | atCommit (msg : String) : WriteFault
  deriving Repr, DecidableEq

/-- The message `str(e)` a fault surfaces as. -/
def WriteFault.msg : WriteFault → String
  | .noFault => ""
  | .atInsert m => m
  | .atUpdate m => m
  | .atCommit m => m

/-- `InventoryDBMySQL.record_sale` with the driver's possible exceptions
made explicit: the `except` clause rolls the transaction back and returns
`(False, None, str(e))`.  Statements that already executed before the
fault have touched only the pending state. -/
def record_sale_tx (sess : Session) (pid : Nat) (qty : Int) (now : String)
    (fault : WriteFault) : (Bool × Option ℚ × String) × Session :=
  match sess.pending.products.find? (fun r => r.id == pid) with
  | none => ((false, none, "Product not found"), sess)
  | some r =>
    if r.stock < qty then
      ((false, none, "Not enough stock (available: " ++ toString r.stock ++ ")"), sess)
    else
      let total_price := r.price * (qty : ℚ)
      match fault with
      | .atInsert m => ((false, none, m), sess.rollback)
      | .atUpdate m =>
          ((false, none, m), (sess.insertSale pid qty total_price now).rollback)
      | .atCommit m =>
          ((false, none, m),
            ((sess.insertSale pid qty total_price now).decStock pid qty).rollback)
      | .noFault =>
          ((true, some total_price, "Sale recorded"),
            ((sess.insertSale pid qty total_price now).decStock pid qty).commit)

/-! ### Consequences of the PRIMARY KEY constraint -/

/-- Two rows of a table with duplicate-free ids that share an id are the
same row. -/
theorem mem_eq_of_nodup_ids {l : List Row} (h : (l.map Row.id).Nodup)
    {p q : Row} (hp : p ∈ l) (hq : q ∈ l) (hid : p.id = q.id) : p = q :=
  List.inj_on_of_nodup_map h hp hq hid

/-- `fetchone` on a WHERE-id query over a duplicate-free table returns the
unique matching row. -/
theorem find?_id_of_nodup {l : List Row} (h : (l.map Row.id).Nodup)
    {r : Row} {pid : Nat} (hr : r ∈ l) (hid : r.id = pid) :
    l.find? (fun q => q.id == pid) = some r := by
  have hsome : (l.find? (fun q => q.id == pid)).isSome :=
    List.find?_isSome.2 ⟨r, hr, by simp [hid]⟩
  obtain ⟨x, hx⟩ := Option.isSome_iff_exists.1 hsome
  have hxmem : x ∈ l := List.mem_of_find?_eq_some hx
  have hxid : x.id = pid := by simpa using List.find?_some hx
  have : x = r := mem_eq_of_nodup_ids h hxmem hr (hxid.trans hid.symm)
  rw [hx, this]

/-- An UPDATE whose WHERE clause matches no row leaves the table
unchanged. -/
theorem map_update_of_not_mem {l : List Row} {pid : Nat} (f : Row → Row)
    (h : ∀ q ∈ l, q.id ≠ pid) :
    l.map (fun q => if q.id = pid then f q else q) = l := by
  have : l.map (fun q => if q.id = pid then f q else q) = l.map id :=
    List.map_congr_left (fun a ha => by simp [h a ha])
  rw [this, List.map_id]

/-- Decrementing the stock of the unique row with a given id lowers the
summed inventory value by that row's price times the decrement. -/
theorem sum_value_dec (l : List Row) (pid : Nat) (qty : Int)
    (hnodup : (l.map Row.id).Nodup) (r : Row) (hr : r ∈ l) (hid : r.id = pid) :
    ((l.map (fun p => if p.id = pid then { p with stock := p.stock - qty } else p)).map
        (fun p => p.price * (p.stock : ℚ))).sum
      = (l.map (fun p => p.price * (p.stock : ℚ))).sum - r.price * (qty : ℚ) := by
  induction l with
  | nil => cases hr
  | cons a l ih =>
    have hnd : a.id ∉ l.map Row.id ∧ (l.map Row.id).Nodup := by
      simpa using hnodup
    rcases List.mem_cons.1 hr with hra | hrl
    · subst hra
      have htail : ∀ q ∈ l, q.id ≠ pid := by
        intro q hq hqid
        have hmem : q.id ∈ l.map Row.id := List.mem_map_of_mem Row.id hq
        rw [hqid, ← hid] at hmem
        exact hnd.1 hmem
      simp only [List.map_cons, List.sum_cons, if_pos hid,
        map_update_of_not_mem _ htail]
      push_cast
      ring
    · have hane : a.id ≠ pid := by
        intro ha
        have hmem : r.id ∈ l.map Row.id := List.mem_map_of_mem Row.id hrl
        rw [hid, ← ha] at hmem
        exact hnd.1 hmem
      simp only [List.map_cons, List.sum_cons, if_neg hane,
        ih hnd.2 hrl]
      ring

/-- A stock-changing UPDATE preserves row ids, so a WHERE-id lookup on the
updated table is the lookup on the original table, updated. -/
theorem find?_id_map_of_preserve (l : List Row) (pid : Nat) (g : Row → Row)
    (hg : ∀ p, (g p).id = p.id) :
    ((l.map g).find? (fun q => q.id == pid))
      = (l.find? (fun q => q.id == pid)).map g := by
  rw [List.find?_map]
  have hpred : ((fun q : Row => q.id == pid) ∘ g) = fun q : Row => q.id == pid := by
    funext q
    simp [hg]
  rw [hpred]

/-- The WHERE-id stock update of `record_sale` preserves ids. -/
theorem record_sale_update_preserves_id (pid : Nat) (qty : Int) (p : Row) :
    ((fun p : Row => if p.id = pid then { p with stock := p.stock - qty } else p) p).id
      = p.id := by
  by_cases h : p.id = pid <;> simp [h]

/-- Full characterisation of `record_sale` on the success path. -/
theorem record_sale_success_eq (s : DBState) (pid : Nat) (qty : Int)
    (now : String) (r : Row) (hnodup : (s.products.map Row.id).Nodup)
    (hr : r ∈ s.products) (hid : r.id = pid) (hqty : qty ≤ r.stock) :
    record_sale s pid qty now =
      ((true, some (r.price * (qty : ℚ)), "Sale recorded"),
        { s with
          products := s.products.map
            (fun p => if p.id = pid then { p with stock := p.stock - qty } else p)
          sales := s.sales ++ [⟨s.nextSaleId, pid, qty, r.price * (qty : ℚ), now⟩]
          nextSaleId := s.nextSaleId + 1 }) := by
  unfold record_sale
  rw [find?_id_of_nodup hnodup hr hid]
  simp [Int.not_lt.2 hqty]

/-- On the success path the product read back by id afterwards is the
pre-call row with its stock decremented. -/
theorem get_product_by_id_record_success (s : DBState) (pid : Nat) (qty : Int)
    (now : String) (r : Row) (hnodup : (s.products.map Row.id).Nodup)
    (hr : r ∈ s.products) (hid : r.id = pid) (hqty : qty ≤ r.stock) :
    get_product_by_id (record_sale s pid qty now).2 pid
      = some { rowToProduct r with stock := r.stock - qty } := by
  rw [record_sale_success_eq s pid qty now r hnodup hr hid hqty]
  unfold get_product_by_id
  rw [find?_id_map_of_preserve s.products pid _
      (record_sale_update_preserves_id pid qty),
    find?_id_of_nodup hnodup hr hid]
  simp [rowToProduct, hid]

/-! ### Concrete states used to witness the claims -/

/-- A one-product store: id 1, price 2, stock 50. -/
def Wrow : Row := ⟨1, "w", some "c", 2, 50, "d"⟩

/-- Store holding only `Wrow`. -/
def Wone : DBState := ⟨[Wrow], [], 2, 1⟩

/-- A store whose single product has a NULL category. -/
def Wnull : DBState := ⟨[⟨1, "n", none, 1, 1, "d"⟩], [], 2, 1⟩

/-- The empty store. -/
def Wempty : DBState := ⟨[], [], 1, 1⟩

/-! ### The claims -/

/-- C1: for a product present in the store and a quantity at most its
stock, `record_sale` succeeds, returns the total price `price * qty`,
appends exactly one sale row carrying that total price, decrements the
product's stock by exactly `qty`, and lowers the total inventory value by
`price * qty`. -/
theorem record_sale_success_spec (s : DBState) (pid : Nat) (qty : Int)
    (now : String) (r : Row) (hnodup : (s.products.map Row.id).Nodup)
    (hr : r ∈ s.products) (hid : r.id = pid) (hqty : qty ≤ r.stock) :
    (record_sale s pid qty now).1
        = (true, some (r.price * (qty : ℚ)), "Sale recorded")
    ∧ (record_sale s pid qty now).2.sales
        = s.sales ++ [⟨s.nextSaleId, pid, qty, r.price * (qty : ℚ), now⟩]
    ∧ get_product_by_id (record_sale s pid qty now).2 pid
        = some { rowToProduct r with stock := r.stock - qty }
    ∧ get_total_inventory_value (record_sale s pid qty now).2
        = get_total_inventory_value s - r.price * (qty : ℚ) := by
  refine ⟨?_, ?_, get_product_by_id_record_success s pid qty now r hnodup hr hid hqty, ?_⟩
  · rw [record_sale_success_eq s pid qty now r hnodup hr hid hqty]
  · rw [record_sale_success_eq s pid qty now r hnodup hr hid hqty]
  · rw [record_sale_success_eq s pid qty now r hnodup hr hid hqty]
    unfold get_total_inventory_value
    exact sum_value_dec s.products pid qty hnodup r hr hid

/-- Witness for C1 at the concrete store `Wone`, selling 5 units. -/
theorem record_sale_success_spec_witness :
    ((Wone.products.map Row.id).Nodup ∧ Wrow ∈ Wone.products ∧ Wrow.id = 1
      ∧ (5 : Int) ≤ Wrow.stock)
    ∧ ((record_sale Wone 1 5 "t").1
          = (true, some (Wrow.price * ((5 : Int) : ℚ)), "Sale recorded")
      ∧ (record_sale Wone 1 5 "t").2.sales
          = Wone.sales ++ [⟨Wone.nextSaleId, 1, 5, Wrow.price * ((5 : Int) : ℚ), "t"⟩]
      ∧ get_product_by_id (record_sale Wone 1 5 "t").2 1
          = some { rowToProduct Wrow with stock := Wrow.stock - 5 }
      ∧ get_total_inventory_value (record_sale Wone 1 5 "t").2
          = get_total_inventory_value Wone - Wrow.price * ((5 : Int) : ℚ)) :=
  ⟨⟨by decide, by decide, by decide, by decide⟩,
    record_sale_success_spec Wone 1 5 "t" Wrow (by decide) (by decide) (by decide)
      (by decide)⟩

/-- C2: for a product present in the store and a quantity strictly above
its stock, `record_sale` fails with the message
`Not enough stock (available: N)` for the available stock N, and the
whole database state is unchanged. -/
theorem record_sale_insufficient_spec (s : DBState) (pid : Nat) (qty : Int)
    (now : String) (r : Row) (hnodup : (s.products.map Row.id).Nodup)
    (hr : r ∈ s.products) (hid : r.id = pid) (hlt : r.stock < qty) :
    record_sale s pid qty now
      = ((false, none, "Not enough stock (available: " ++ toString r.stock ++ ")"), s) := by
  unfold record_sale
  rw [find?_id_of_nodup hnodup hr hid]
  simp [hlt]

/-- Witness for C2 at `Wone`, asking for 1000 of the 50 in stock. -/
theorem record_sale_insufficient_spec_witness :
    ((Wone.products.map Row.id).Nodup ∧ Wrow ∈ Wone.products ∧ Wrow.id = 1
      ∧ Wrow.stock < 1000)
    ∧ record_sale Wone 1 1000 "t"
        = ((false, none, "Not enough stock (available: " ++ toString Wrow.stock ++ ")"),
            Wone) :=
  ⟨⟨by decide, by decide, by decide, by decide⟩,
    record_sale_insufficient_spec Wone 1 1000 "t" Wrow (by decide) (by decide)
      (by decide) (by decide)⟩

/-- C6: a product whose stock is non-negative before a `record_sale` call
still has non-negative stock afterwards, whatever the quantity and whether
the call succeeds or fails. -/
theorem record_sale_stock_nonneg (s : DBState) (pid : Nat) (qty : Int)
    (now : String) (hnodup : (s.products.map Row.id).Nodup) (p : Row)
    (hp : p ∈ s.products) (hpos : 0 ≤ p.stock) (q : Row)
    (hq : q ∈ (record_sale s pid qty now).2.products) (hqid : q.id = p.id) :
    0 ≤ q.stock := by
  cases hfind : s.products.find? (fun r => r.id == pid) with
  | none =>
    have hstate : record_sale s pid qty now = ((false, none, "Product not found"), s) := by
      unfold record_sale
      rw [hfind]
    rw [hstate] at hq
    have hqp : q = p := mem_eq_of_nodup_ids hnodup hq hp hqid
    rw [hqp]
    exact hpos
  | some r =>
    have hrmem : r ∈ s.products := List.mem_of_find?_eq_some hfind
    have hrid : r.id = pid := by simpa using List.find?_some hfind
    by_cases hlt : r.stock < qty
    · have hstate : record_sale s pid qty now
          = ((false, none, "Not enough stock (available: " ++ toString r.stock ++ ")"), s) := by
        unfold record_sale
        rw [hfind]
        simp [hlt]
      rw [hstate] at hq
      have hqp : q = p := mem_eq_of_nodup_ids hnodup hq hp hqid
      rw [hqp]
      exact hpos
    · rw [record_sale_success_eq s pid qty now r hnodup hrmem hrid (Int.not_lt.1 hlt)] at hq
      simp only [List.mem_map] at hq
      obtain ⟨p0, hp0, hfp0⟩ := hq
      by_cases hpid : p0.id = pid
      · have hp0r : p0 = r := mem_eq_of_nodup_ids hnodup hp0 hrmem (hpid.trans hrid.symm)
        rw [← hfp0, if_pos hpid, hp0r]
        have : qty ≤ r.stock := Int.not_lt.1 hlt
        simp only []
        omega
      · have hqeq : q = p0 := by rw [← hfp0, if_neg hpid]
        have hp0p : p0 = p := mem_eq_of_nodup_ids hnodup hp0 hp (by rw [← hqeq]; exact hqid)
        rw [hqeq, hp0p]
        exact hpos

/-- Witness for C6 at `Wone`: after selling 5 the row with id 1 still has
non-negative stock. -/
theorem record_sale_stock_nonneg_witness :
    ((Wone.products.map Row.id).Nodup ∧ Wrow ∈ Wone.products ∧ (0 : Int) ≤ Wrow.stock
      ∧ (⟨1, "w", some "c", 2, 45, "d"⟩ : Row) ∈ (record_sale Wone 1 5 "t").2.products
      ∧ (⟨1, "w", some "c", 2, 45, "d"⟩ : Row).id = Wrow.id)
    ∧ (0 : Int) ≤ (⟨1, "w", some "c", 2, 45, "d"⟩ : Row).stock :=
  ⟨⟨by decide, by decide, by decide, by decide, by decide⟩,
    record_sale_stock_nonneg Wone 1 5 "t" (by decide) Wrow (by decide) (by decide)
      ⟨1, "w", some "c", 2, 45, "d"⟩ (by decide) (by decide)⟩

/-- C5 counterexample: the code performs no positivity check on the sale
quantity.  Selling -3 units of the product with 50 in stock succeeds,
appends a sale row and raises the stock to 53, where the claim demands a
ValidationError and no mutation. -/
theorem record_sale_nonpositive_cex :
    (-3 : Int) ≤ 0
    ∧ (record_sale Wone 1 (-3) "t").1.1 = true
    ∧ (record_sale Wone 1 (-3) "t").2.sales.length = Wone.sales.length + 1
    ∧ get_product_by_id (record_sale Wone 1 (-3) "t").2 1
        = some ⟨1, "w", some "c", 2, 53, "d"⟩ := by decide

/-- C5 amended: `record_sale` does not validate the quantity.  For a
non-positive quantity and an existing product with non-negative stock the
stock check passes, so the sale is recorded: one sale row is appended with
total price `price * qty` and the stock becomes `stock - qty`, i.e. it
increases by `-qty`. -/
theorem record_sale_nonpositive_spec (s : DBState) (pid : Nat) (qty : Int)
    (now : String) (r : Row) (hnodup : (s.products.map Row.id).Nodup)
    (hr : r ∈ s.products) (hid : r.id = pid) (hqty : qty ≤ 0)
    (hstock : 0 ≤ r.stock) :
    (record_sale s pid qty now).1.1 = true
    ∧ (record_sale s pid qty now).2.sales
        = s.sales ++ [⟨s.nextSaleId, pid, qty, r.price * (qty : ℚ), now⟩]
    ∧ get_product_by_id (record_sale s pid qty now).2 pid
        = some { rowToProduct r with stock := r.stock - qty } := by
  have hle : qty ≤ r.stock := le_trans hqty hstock
  refine ⟨?_, ?_, get_product_by_id_record_success s pid qty now r hnodup hr hid hle⟩
  · rw [record_sale_success_eq s pid qty now r hnodup hr hid hle]
  · rw [record_sale_success_eq s pid qty now r hnodup hr hid hle]

/-- Witness for the amended C5 at `Wone` with quantity -3. -/
theorem record_sale_nonpositive_spec_witness :
    ((Wone.products.map Row.id).Nodup ∧ Wrow ∈ Wone.products ∧ Wrow.id = 1
      ∧ (-3 : Int) ≤ 0 ∧ (0 : Int) ≤ Wrow.stock)
    ∧ ((record_sale Wone 1 (-3) "t").1.1 = true
      ∧ (record_sale Wone 1 (-3) "t").2.sales
          = Wone.sales ++ [⟨Wone.nextSaleId, 1, -3, Wrow.price * ((-3 : Int) : ℚ), "t"⟩]
      ∧ get_product_by_id (record_sale Wone 1 (-3) "t").2 1
          = some { rowToProduct Wrow with stock := Wrow.stock - (-3) }) :=
  ⟨⟨by decide, by decide, by decide, by decide, by decide⟩,
    record_sale_nonpositive_spec Wone 1 (-3) "t" Wrow (by decide) (by decide)
      (by decide) (by decide) (by decide)⟩

/-- C4 counterexample: `add_product` performs no validation.  Adding a
product with empty name, price -1 and stock -1 to the empty store inserts
it and returns the new id, where the claim demands a ValidationError and
no insertion. -/
theorem add_product_no_validation_cex :
    ("" : String) = "" ∧ (-1 : ℚ) < 0 ∧ (-1 : Int) < 0
    ∧ (add_product Wempty "" "" (-1) (-1) "d").1 = 1
    ∧ (add_product Wempty "" "" (-1) (-1) "d").2.products
        = [⟨1, "", some "", -1, -1, "d"⟩] := by decide

/-- C4 amended: `add_product` never fails and never validates: for every
input, including an empty name and negative price or stock, it appends a
product carrying exactly the given fields under the next auto-increment
id and returns that id. -/
theorem add_product_spec (s : DBState) (n c : String) (price : ℚ)
    (stock : Int) (now : String)
    (hfresh : ∀ r ∈ s.products, r.id < s.nextProductId) :
    (add_product s n c price stock now).1 = s.nextProductId
    ∧ (add_product s n c price stock now).2.products.length = s.products.length + 1
    ∧ get_product_by_id (add_product s n c price stock now).2 s.nextProductId
        = some ⟨s.nextProductId, n, some c, price, stock, now⟩ := by
  refine ⟨rfl, by simp [add_product], ?_⟩
  unfold get_product_by_id add_product
  simp only [List.find?_append]
  have h1 : s.products.find? (fun r => r.id == s.nextProductId) = none :=
    List.find?_eq_none.2 (fun x hx => by simpa using Nat.ne_of_lt (hfresh x hx))
  rw [h1]
  simp [List.find?, rowToProduct]

/-- Witness for the amended C4: adding the invalid product to the empty
store. -/
theorem add_product_spec_witness :
    (∀ r ∈ Wempty.products, r.id < Wempty.nextProductId)
    ∧ ((add_product Wempty "" "" (-1) (-1) "d").1 = Wempty.nextProductId
      ∧ (add_product Wempty "" "" (-1) (-1) "d").2.products.length
          = Wempty.products.length + 1
      ∧ get_product_by_id (add_product Wempty "" "" (-1) (-1) "d").2 Wempty.nextProductId
          = some ⟨Wempty.nextProductId, "", some "", -1, -1, "d"⟩) :=
  ⟨by decide, add_product_spec Wempty "" "" (-1) (-1) "d" (by decide)⟩

/-- C7 counterexample: the product with id 1 exists in `Wone`, yet
`update_stock` with amount 0 returns `false`, because MySQL's
affected-rows count (and hence `cursor.rowcount`) only counts rows whose
stored value actually changed. -/
theorem update_stock_zero_cex :
    Wrow ∈ Wone.products ∧ Wrow.id = 1 ∧ (update_stock Wone 1 0).1 = false := by decide

/-- C7 amended: when a product with the given id exists, both operations
update its stock as described (to `stock + amount`, respectively to
`value`), but the success flag is `true` exactly when the UPDATE changes
the stored value: `amount ≠ 0` for `update_stock`, `value ≠` the current
stock for `set_stock`.  When no product with the id exists both are
no-ops returning `false`. -/
theorem stock_ops_spec (s : DBState) (pid : Nat) (amt v : Int)
    (hnodup : (s.products.map Row.id).Nodup) :
    (∀ r ∈ s.products, r.id = pid →
      (((update_stock s pid amt).1 = true ↔ amt ≠ 0)
        ∧ get_product_by_id (update_stock s pid amt).2 pid
            = some { rowToProduct r with stock := r.stock + amt }
        ∧ ((set_stock s pid v).1 = true ↔ r.stock ≠ v)
        ∧ get_product_by_id (set_stock s pid v).2 pid
            = some { rowToProduct r with stock := v }))
    ∧ ((∀ r ∈ s.products, r.id ≠ pid) →
        update_stock s pid amt = (false, s) ∧ set_stock s pid v = (false, s)) := by
  constructor
  · intro r hr hid
    refine ⟨?_, ?_, ?_, ?_⟩
    · simp only [update_stock, List.any_eq_true]
      constructor
      · rintro ⟨q, _, hq⟩ h0
        simp [h0] at hq
      · intro h0
        exact ⟨r, hr, by simp [hid]; omega⟩
    · simp only [update_stock]
      unfold get_product_by_id
      rw [find?_id_map_of_preserve s.products pid _
          (fun p => by by_cases h : p.id = pid <;> simp [h]),
        find?_id_of_nodup hnodup hr hid]
      simp [rowToProduct, hid]
    · simp only [set_stock, List.any_eq_true]
      constructor
      · rintro ⟨q, hqmem, hq⟩
        simp only [Bool.and_eq_true, beq_iff_eq, bne_iff_ne] at hq
        have : q = r := mem_eq_of_nodup_ids hnodup hqmem hr (hq.1.trans hid.symm)
        rw [← this]
        exact hq.2
      · intro hne
        exact ⟨r, hr, by simp [hid, hne]⟩
    · simp only [set_stock]
      unfold get_product_by_id
      rw [find?_id_map_of_preserve s.products pid _
          (fun p => by by_cases h : p.id = pid <;> simp [h]),
        find?_id_of_nodup hnodup hr hid]
      simp [rowToProduct, hid]
  · intro habs
    have hmap : ∀ f : Row → Row,
        s.products.map (fun q => if q.id = pid then f q else q) = s.products :=
      fun f => map_update_of_not_mem f habs
    have hany : ∀ p : Row → Bool,
        (s.products.any (fun q => (q.id == pid) && p q)) = false := by
      intro p
      rw [List.any_eq_false]
      intro x hx
      simp [habs x hx]
    constructor
    · simp only [update_stock]
      rw [hany, hmap]
    · simp only [set_stock]
      rw [hany, hmap]

/-- Witness for the amended C7 at `Wone` (amount 7, value 50). -/
theorem stock_ops_spec_witness :
    (Wone.products.map Row.id).Nodup
    ∧ (((update_stock Wone 1 7).1 = true ↔ (7 : Int) ≠ 0)
      ∧ get_product_by_id (update_stock Wone 1 7).2 1
          = some { rowToProduct Wrow with stock := Wrow.stock + 7 }
      ∧ ((set_stock Wone 1 50).1 = true ↔ Wrow.stock ≠ 50)
      ∧ get_product_by_id (set_stock Wone 1 50).2 1
          = some { rowToProduct Wrow with stock := 50 }) :=
  ⟨by decide, (stock_ops_spec Wone 1 7 50 (by decide)).1 Wrow (by decide) (by decide)⟩

/-- C8: `low_stock` returns exactly the products whose stock is strictly
below the threshold, in ascending stock order, and excludes every product
whose stock is at least the threshold. -/
theorem low_stock_spec (s : DBState) (t : Int) :
    (low_stock s t).Perm
        ((s.products.filter (fun r => decide (r.stock < t))).map rowToProduct)
    ∧ List.Sorted (fun a b : Product => a.stock ≤ b.stock) (low_stock s t)
    ∧ (∀ p ∈ low_stock s t, p.stock < t)
    ∧ (∀ r ∈ s.products, t ≤ r.stock → rowToProduct r ∉ low_stock s t) := by
  refine ⟨?_, ?_, ?_, ?_⟩
  · exact (List.perm_insertionSort rowStockLe _).map rowToProduct
  · unfold low_stock
    rw [List.Sorted, List.pairwise_map]
    exact List.sorted_insertionSort rowStockLe _
  · intro p hp
    unfold low_stock at hp
    obtain ⟨r0, hr0, hfr0⟩ := List.mem_map.1 hp
    have hr0f : r0 ∈ s.products.filter (fun r => decide (r.stock < t)) :=
      (List.perm_insertionSort rowStockLe _).mem_iff.1 hr0
    have hlt : r0.stock < t := by simpa using (List.mem_filter.1 hr0f).2
    rw [← hfr0]
    exact hlt
  · intro r hr hge hmem
    unfold low_stock at hmem
    obtain ⟨r0, hr0, hfr0⟩ := List.mem_map.1 hmem
    have hr0f : r0 ∈ s.products.filter (fun r => decide (r.stock < t)) :=
      (List.perm_insertionSort rowStockLe _).mem_iff.1 hr0
    have hlt : r0.stock < t := by simpa using (List.mem_filter.1 hr0f).2
    have hstock : r0.stock = r.stock := congrArg Product.stock hfr0
    omega

/-- C9: `delete_product` succeeds exactly when a product with the id
exists, removes that product and cascades over every sale row referencing
it, after which a lookup by that id returns nothing; on an absent id it
returns `false`. -/
theorem delete_product_spec (s : DBState) (pid : Nat) :
    ((delete_product s pid).1 = true ↔ ∃ r ∈ s.products, r.id = pid)
    ∧ (∀ r : Row, r ∈ (delete_product s pid).2.products ↔ r ∈ s.products ∧ r.id ≠ pid)
    ∧ (∀ sl : SaleRow,
        sl ∈ (delete_product s pid).2.sales ↔ sl ∈ s.sales ∧ sl.product_id ≠ pid)
    ∧ get_product_by_id (delete_product s pid).2 pid = none
    ∧ ((∀ r ∈ s.products, r.id ≠ pid) → (delete_product s pid).1 = false) := by
  refine ⟨?_, ?_, ?_, ?_, ?_⟩
  · simp [delete_product, List.any_eq_true]
  · intro r
    simp [delete_product, List.mem_filter]
  · intro sl
    simp [delete_product, List.mem_filter]
  · simp only [delete_product, get_product_by_id]
    have h : List.find? (fun r => r.id == pid)
        (List.filter (fun r => r.id != pid) s.products) = none := by
      rw [List.find?_eq_none]
      intro x hx
      have : x.id ≠ pid := by simpa using (List.mem_filter.1 hx).2
      simp [this]
    rw [h]
    rfl
  · intro habs
    simp only [delete_product, List.any_eq_false]
    intro x hx
    simp [habs x hx]

/-- C10 counterexample: for the product with NULL category in `Wnull`,
`get_products` surfaces the category as `""` while `get_product_by_id`
passes the NULL through, so the two reads disagree on that product. -/
theorem get_by_id_null_category_cex :
    (get_products Wnull).find? (fun p => p.id == 1)
        = some ⟨1, "n", some "", 1, 1, "d"⟩
    ∧ get_product_by_id Wnull 1 = some ⟨1, "n", none, 1, 1, "d"⟩
    ∧ (get_products Wnull).find? (fun p => p.id == 1) ≠ get_product_by_id Wnull 1 := by
  decide

/-- C10 amended: for a product whose stored category is not NULL,
`get_product_by_id` returns exactly the element of `get_products` carrying
that id, field for field; only a NULL category (mapped to `""` by
`get_products` but passed through by `get_product_by_id`) makes the two
reads disagree. -/
theorem get_by_id_eq_list_entry (s : DBState) (pid : Nat) (r : Row) (c : String)
    (hnodup : (s.products.map Row.id).Nodup) (hr : r ∈ s.products)
    (hid : r.id = pid) (hc : r.category = some c) :
    get_product_by_id s pid = some (rowToProduct r)
    ∧ rowToProduct r ∈ get_products s
    ∧ (∀ q ∈ get_products s, q.id = pid → q = rowToProduct r) := by
  have hconv : rowToProductOrEmpty r = rowToProduct r := by
    simp [rowToProductOrEmpty, rowToProduct, hc]
  refine ⟨?_, ?_, ?_⟩
  · unfold get_product_by_id
    rw [find?_id_of_nodup hnodup hr hid]
    rfl
  · unfold get_products
    rw [← hconv]
    exact List.mem_map_of_mem _
      ((List.perm_insertionSort rowIdLe s.products).mem_iff.2 hr)
  · intro q hq hqid
    unfold get_products at hq
    obtain ⟨r0, hr0, hfr0⟩ := List.mem_map.1 hq
    have hr0mem : r0 ∈ s.products :=
      (List.perm_insertionSort rowIdLe s.products).mem_iff.1 hr0
    have hr0id : r0.id = pid := by
      rw [← hqid, ← hfr0]
      rfl
    have hr0r : r0 = r := mem_eq_of_nodup_ids hnodup hr0mem hr (hr0id.trans hid.symm)
    rw [← hfr0, hr0r, hconv]

/-- Witness for the amended C10 at `Wone`. -/
theorem get_by_id_eq_list_entry_witness :
    ((Wone.products.map Row.id).Nodup ∧ Wrow ∈ Wone.products ∧ Wrow.id = 1
      ∧ Wrow.category = some "c")
    ∧ (get_product_by_id Wone 1 = some (rowToProduct Wrow)
      ∧ rowToProduct Wrow ∈ get_products Wone
      ∧ (∀ q ∈ get_products Wone, q.id = 1 → q = rowToProduct Wrow)) :=
  ⟨⟨by decide, by decide, by decide, by decide⟩,
    get_by_id_eq_list_entry Wone 1 Wrow "c" (by decide) (by decide) (by decide)
      (by decide)⟩

/-- C3: once the stock check has passed, a driver exception at the sale
insert, at the stock update or at the commit makes `record_sale` roll the
transaction back — the published state is exactly the pre-call state, no
partial write survives — and return the exception text as a result value;
and the fault-free run publishes exactly the atomic success state of
`record_sale`, so a sale row and its stock decrement always appear
together or not at all. -/
theorem record_sale_tx_rollback (sess : Session) (pid : Nat) (qty : Int)
    (now : String) (fault : WriteFault) (r : Row)
    (hsync : sess.pending = sess.committed)
    (hfind : sess.pending.products.find? (fun q => q.id == pid) = some r)
    (hstock : ¬ r.stock < qty) (hfault : fault ≠ WriteFault.noFault) :
    record_sale_tx sess pid qty now fault
      = ((false, none, fault.msg), ⟨sess.committed, sess.committed⟩)
    ∧ (record_sale_tx sess pid qty now WriteFault.noFault).2.committed
        = (record_sale sess.committed pid qty now).2
    ∧ (record_sale_tx sess pid qty now WriteFault.noFault).2.pending
        = (record_sale_tx sess pid qty now WriteFault.noFault).2.committed := by
  refine ⟨?_, ?_, ?_⟩
  · cases fault with
    | noFault => exact absurd rfl hfault
    | atInsert m =>
      unfold record_sale_tx
      rw [hfind]
      dsimp only
      rw [if_neg hstock]
      rfl
    | atUpdate m =>
      unfold record_sale_tx
      rw [hfind]
      dsimp only
      rw [if_neg hstock]
      rfl
    | atCommit m =>
      unfold record_sale_tx
      rw [hfind]
      dsimp only
      rw [if_neg hstock]
      rfl
  · unfold record_sale_tx record_sale
    rw [← hsync, hfind]
    dsimp only
    rw [if_neg hstock, if_neg hstock]
    simp [Session.insertSale, Session.decStock, Session.commit]
  · unfold record_sale_tx
    rw [hfind]
    dsimp only
    rw [if_neg hstock]
    rfl

/-- Witness for C3 at a clean session over `Wone`, with the driver
failing at the INSERT. -/
theorem record_sale_tx_rollback_witness :
    ((⟨Wone, Wone⟩ : Session).pending = (⟨Wone, Wone⟩ : Session).committed
      ∧ (⟨Wone, Wone⟩ : Session).pending.products.find? (fun q => q.id == 1) = some Wrow
      ∧ ¬ Wrow.stock < 5
      ∧ WriteFault.atInsert "deadlock" ≠ WriteFault.noFault)
    ∧ (record_sale_tx ⟨Wone, Wone⟩ 1 5 "t" (WriteFault.atInsert "deadlock")
        = ((false, none, (WriteFault.atInsert "deadlock").msg), ⟨Wone, Wone⟩)
      ∧ (record_sale_tx ⟨Wone, Wone⟩ 1 5 "t" WriteFault.noFault).2.committed
          = (record_sale Wone 1 5 "t").2
      ∧ (record_sale_tx ⟨Wone, Wone⟩ 1 5 "t" WriteFault.noFault).2.pending
          = (record_sale_tx ⟨Wone, Wone⟩ 1 5 "t" WriteFault.noFault).2.committed) :=
  ⟨⟨by decide, by decide, by decide, by decide⟩,
    record_sale_tx_rollback ⟨Wone, Wone⟩ 1 5 "t" (WriteFault.atInsert "deadlock") Wrow
      (by decide) (by decide) (by decide) (by decide)⟩

end Inventory
